import Mathlib

/-!
Verification development for the rtmpServerStudy RTMP server.

The Go sources are shallowly embedded: bytes are `Nat` values reduced
modulo 256 at every read or write of a byte slot, `uint32` arithmetic is
`Nat` arithmetic modulo `2 ^ 32`, byte buffers and network input are
`List Nat`, maps are functions into `Option`, and fallible reads return
`Except`.  Each definition mirrors one function of the source files
(`rtmp.go`, i.e. `src/unnamed/part_000`, and `h265Parse/parse.go`).
-/

set_option autoImplicit false

namespace Rtmp

/-! ## Byte-level helpers (embedding of `pio` and `io.ReadFull`) -/

/-- `2 ^ 32`, the modulus of Go `uint32` arithmetic. -/
def u32mod : Nat := 4294967296

/-- Go `uint32` addition. -/
def u32add (a b : Nat) : Nat := (a + b) % u32mod

/-- Go `uint32` subtraction (wrapping). -/
def u32sub (a b : Nat) : Nat := (a + (u32mod - b % u32mod)) % u32mod

/-- `io.ReadFull`: take exactly `k` bytes from the input stream, failing when
fewer are available.  Every byte is reduced modulo 256, reflecting the Go
`byte` type of the buffer the bytes land in. -/
def takeBytes (k : Nat) (inp : List Nat) : Option (List Nat × List Nat) :=
  if k ≤ inp.length then some ((inp.take k).map (fun b => b % 256), inp.drop k)
  else none

/-- `pio.U16BE` on a byte list. -/
def U16BE (b : List Nat) : Nat := b.getD 0 0 * 256 + b.getD 1 0

/-- `pio.U24BE` on a byte list. -/
def U24BE (b : List Nat) : Nat := b.getD 0 0 * 65536 + b.getD 1 0 * 256 + b.getD 2 0

/-- `pio.U32BE` on a byte list. -/
def U32BE (b : List Nat) : Nat :=
  b.getD 0 0 * 16777216 + b.getD 1 0 * 65536 + b.getD 2 0 * 256 + b.getD 3 0

/-- `pio.U32LE` on a byte list. -/
def U32LE (b : List Nat) : Nat :=
  b.getD 0 0 + b.getD 1 0 * 256 + b.getD 2 0 * 65536 + b.getD 3 0 * 16777216

/-- `pio.PutU24BE`: the three bytes written for value `v`. -/
def u24be (v : Nat) : List Nat := [v / 65536 % 256, v / 256 % 256, v % 256]

/-- `pio.PutU32BE`: the four bytes written for value `v`. -/
def u32be (v : Nat) : List Nat :=
  [v / 16777216 % 256, v / 65536 % 256, v / 256 % 256, v % 256]

/-- `pio.PutU32LE`: the four bytes written for value `v`. -/
def u32le (v : Nat) : List Nat :=
  [v % 256, v / 256 % 256, v / 65536 % 256, v / 16777216 % 256]

/-- `pio.PutU16BE`: the two bytes written for value `v`. -/
def u16be (v : Nat) : List Nat := [v / 256 % 256, v % 256]

/-- Write the bytes `bs` into buffer `l` starting at offset `off`
(the embedding of copying into the slice `l[off : off+len(bs)]`). -/
def listWrite (l : List Nat) (off : Nat) (bs : List Nat) : List Nat :=
  l.take off ++ bs ++ l.drop (off + bs.length)

/-! ## Publisher registry (`hash`, `RtmpSessionGet/Push/Del`) -/

/-- `HashMapFactors`: the number of shards of `PublishingSessionMap`. -/
def HashMapFactors : Nat := 101

/-- `hash`: FNV-32a of the anchor string (`fnv.New32a` then `Write` then
`Sum32`), over the string's bytes. -/
def hash (s : List Nat) : Nat :=
  s.foldl (fun h b => (h ^^^ b % 256) * 16777619 % u32mod) 2166136261

/-- The shard index every registry operation computes: `hash(path) % HashMapFactors`. -/
def shardOf (path : List Nat) : Nat := hash path % HashMapFactors

/-- The slice of a `Session` the registry observes: an identity and the
`StreamAnchor` key. -/
structure PubSession where
  id : Nat
  StreamAnchor : List Nat
deriving DecidableEq, Repr

/-- `PublishingSessionMap`: the array of 101 `sessionIndex` maps, as a function
from shard index and anchor to the registered session. -/
abbrev Registry := Nat → List Nat → Option PubSession

/-- The initial registry: every shard map is empty (`init`). -/
def emptyRegistry : Registry := fun _ _ => none

/-- `RtmpSessionGet`: look up the publisher registered under `path` in shard
`hash(path) % HashMapFactors`. -/
def RtmpSessionGet (reg : Registry) (path : List Nat) : Option PubSession :=
  reg (shardOf path) path

/-- `RtmpSessionPush`: insert-if-absent of `session` under its `StreamAnchor`;
returns the new registry and the boolean result. -/
def RtmpSessionPush (reg : Registry) (session : PubSession) : Registry × Bool :=
  let path := session.StreamAnchor
  let i := shardOf path
  match reg i path with
  | some _ => (reg, false)
  | none =>
      (fun j p => if j = i ∧ p = path then some session else reg j p, true)

/-- `RtmpSessionDel`: remove the entry under `session.StreamAnchor` from its
shard. -/
def RtmpSessionDel (reg : Registry) (session : PubSession) : Registry :=
  let path := session.StreamAnchor
  let i := shardOf path
  fun j p => if j = i ∧ p = path then none else reg j p

end Rtmp

namespace Rtmp

/-! ## Chunk codec (`chunkStream`, `Session.readChunk`, header writers) -/

/-- The `EXTTIME` package variable (never reassigned). -/
def EXTTIME : Bool := true

/-- Per-csid reassembly state (`type chunkStream`). -/
structure chunkStream where
  timenow : Nat
  timedelta : Nat
  hastimeext : Bool
  msgsid : Nat
  msgtypeid : Nat
  msgdatalen : Nat
  msgdataleft : Nat
  msghdrtype : Nat
  msgdata : List Nat
deriving DecidableEq, Repr

/-- The zero value `&chunkStream{}` allocated on first use of a csid. -/
def chunkStream.init : chunkStream :=
  { timenow := 0, timedelta := 0, hastimeext := false, msgsid := 0,
    msgtypeid := 0, msgdatalen := 0, msgdataleft := 0, msghdrtype := 0,
    msgdata := [] }

/-- `chunkStream.Start`: begin assembling a message of `msgdatalen` bytes. -/
def chunkStream.Start (self : chunkStream) : chunkStream :=
  { self with msgdataleft := self.msgdatalen,
              msgdata := List.replicate self.msgdatalen 0 }

/-- The fields of `Session` that `readChunk` reads or writes. -/
structure RSession where
  readcsmap : Nat → Option chunkStream
  readMaxChunkSize : Nat
  ackn : Nat
  readAckSize : Nat

/-- Look up or create the chunk-stream state for `csid`
(`cs := self.readcsmap[csid]; if cs == nil { cs = &chunkStream{} }`). -/
def getCs (st : RSession) (csid : Nat) : chunkStream :=
  (st.readcsmap csid).getD chunkStream.init

/-- The errors `readChunk` can return (plus the slice-bounds panic of the
payload copy, which well-formed states never reach). -/
inductive RtmpErr where
  | eof : RtmpErr
  | msgdataleftInvalid : Nat → RtmpErr
  | invalidChunkHdrType : Nat → RtmpErr
  | slicePanic : Nat → Nat → RtmpErr
deriving DecidableEq, Repr

/-- The arguments `readChunk` hands to the message handler
(`hands[cs.msgtypeid](self, cs.timenow, cs.msgsid, cs.msgtypeid, cs.msgdata)`). -/
structure DeliveredMsg where
  timenow : Nat
  msgsid : Nat
  msgtypeid : Nat
  msgdata : List Nat
deriving DecidableEq, Repr

/-- Observable outcome of one `readChunk` call: bytes consumed, the message
dispatched (if the chunk completed one), the acknowledgement emitted (if any),
and the remaining input. -/
structure ChunkOutcome where
  n : Nat
  delivered : Option DeliveredMsg
  ack : Option Nat
  rest : List Nat
deriving DecidableEq, Repr

/-- Basic-header phase of `readChunk`: returns
`(fmtTpye, csid, bytes consumed, remaining input)`. -/
def readBasicHeader (inp : List Nat) : Except RtmpErr (Nat × Nat × Nat × List Nat) :=
  match takeBytes 1 inp with
  | none => .error .eof
  | some (hb, rest) =>
    let header := hb.getD 0 0
    let fmtTpye := header / 64
    let csid := header % 64
    match csid with
    | 0 =>
      match takeBytes 1 rest with
      | none => .error .eof
      | some (b, rest2) => .ok (fmtTpye, b.getD 0 0 + 64, 2, rest2)
    | 1 =>
      match takeBytes 2 rest with
      | none => .error .eof
      | some (b, rest2) => .ok (fmtTpye, U16BE b + 64, 3, rest2)
    | _ => .ok (fmtTpye, csid, 1, rest)

/-- Message-header phase of `readChunk` (the `switch fmtTpye` block): updates
the chunk-stream state and returns the bytes consumed by this phase and the
remaining input. -/
def readMsgHeader (cs : chunkStream) (fmtTpye : Nat) (inp : List Nat) :
    Except RtmpErr (chunkStream × Nat × List Nat) :=
  match fmtTpye with
  | 0 =>
    if cs.msgdataleft ≠ 0 then .error (.msgdataleftInvalid cs.msgdataleft)
    else
      match takeBytes 11 inp with
      | none => .error .eof
      | some (h, rest) =>
        let timestamp := U24BE (h.take 3)
        let cs := { cs with msghdrtype := 0,
                            msgdatalen := U24BE ((h.drop 3).take 3),
                            msgtypeid := h.getD 6 0,
                            msgsid := U32LE (h.drop 7) }
        if timestamp = 16777215 then
          match takeBytes 4 rest with
          | none => .error .eof
          | some (e, rest2) =>
            .ok (({ cs with hastimeext := true, timenow := U32BE e }).Start, 15, rest2)
        else
          .ok (({ cs with hastimeext := false, timenow := timestamp }).Start, 11, rest)
  | 1 =>
    if cs.msgdataleft ≠ 0 then .error (.msgdataleftInvalid cs.msgdataleft)
    else
      match takeBytes 7 inp with
      | none => .error .eof
      | some (h, rest) =>
        let timestamp := U24BE (h.take 3)
        let cs := { cs with msghdrtype := 1,
                            msgdatalen := U24BE ((h.drop 3).take 3),
                            msgtypeid := h.getD 6 0 }
        if timestamp = 16777215 then
          match takeBytes 4 rest with
          | none => .error .eof
          | some (e, rest2) =>
            let ts := U32BE e
            .ok (({ cs with hastimeext := true, timedelta := ts,
                            timenow := u32add cs.timenow ts }).Start, 11, rest2)
        else
          .ok (({ cs with hastimeext := false, timedelta := timestamp,
                          timenow := u32add cs.timenow timestamp }).Start, 7, rest)
  | 2 =>
    if cs.msgdataleft ≠ 0 then .error (.msgdataleftInvalid cs.msgdataleft)
    else
      match takeBytes 3 inp with
      | none => .error .eof
      | some (h, rest) =>
        let timestamp := U24BE (h.take 3)
        let cs := { cs with msghdrtype := 2 }
        if timestamp = 16777215 then
          match takeBytes 4 rest with
          | none => .error .eof
          | some (e, rest2) =>
            let ts := U32BE e
            .ok (({ cs with hastimeext := true, timedelta := ts,
                            timenow := u32add cs.timenow ts }).Start, 7, rest2)
        else
          .ok (({ cs with hastimeext := false, timedelta := timestamp,
                          timenow := u32add cs.timenow timestamp }).Start, 3, rest)
  | 3 =>
    let step : Except RtmpErr (chunkStream × Nat × List Nat) :=
      if cs.hastimeext && EXTTIME then
        match cs.msghdrtype with
        | 0 =>
          match takeBytes 4 inp with
          | none => .error .eof
          | some (e, rest) => .ok ({ cs with timenow := U32BE e }, 4, rest)
        | 1 =>
          match takeBytes 4 inp with
          | none => .error .eof
          | some (e, rest) =>
            .ok ({ cs with timenow := u32add cs.timenow (U32BE e) }, 4, rest)
        | 2 =>
          match takeBytes 4 inp with
          | none => .error .eof
          | some (e, rest) =>
            .ok ({ cs with timenow := u32add cs.timenow (U32BE e) }, 4, rest)
        | _ => .ok (cs, 0, inp)
      else
        match cs.msghdrtype with
        | 1 => .ok ({ cs with timenow := u32add cs.timenow cs.timedelta }, 0, inp)
        | 2 => .ok ({ cs with timenow := u32add cs.timenow cs.timedelta }, 0, inp)
        | _ => .ok (cs, 0, inp)
    match step with
    | .error e => .error e
    | .ok (cs1, k, rest) =>
      if cs1.msgdataleft = 0 then .ok (cs1.Start, k, rest) else .ok (cs1, k, rest)
  | _ => .error (.invalidChunkHdrType fmtTpye)

/-- Payload phase of `readChunk`: read `min(msgdataleft, readMaxChunkSize)`
bytes into `msgdata` at offset `msgdatalen - msgdataleft` and decrement
`msgdataleft`.  The out-of-range branch is the slice panic of
`cs.msgdata[off : int(off)+size]`. -/
def readChunkPayload (readMax : Nat) (cs : chunkStream) (inp : List Nat) :
    Except RtmpErr (chunkStream × Nat × List Nat) :=
  let size := if cs.msgdataleft > readMax then readMax else cs.msgdataleft
  let off := u32sub cs.msgdatalen cs.msgdataleft
  if off + size ≤ cs.msgdata.length then
    match takeBytes size inp with
    | none => .error .eof
    | some (bs, rest) =>
      .ok ({ cs with msgdata := listWrite cs.msgdata off bs,
                     msgdataleft := u32sub cs.msgdataleft size }, size, rest)
  else .error (.slicePanic off size)

/-- Delivery and acknowledgement tail of `readChunk`: store the chunk-stream
state, dispatch the message when `msgdataleft` reached 0, add the consumed
bytes to `ackn` and emit an ack when the window is exceeded. -/
def finishChunk (st : RSession) (csid n : Nat) (cs : chunkStream) (rest : List Nat) :
    RSession × ChunkOutcome :=
  let delivered : Option DeliveredMsg :=
    if cs.msgdataleft = 0 then
      some { timenow := cs.timenow, msgsid := cs.msgsid,
             msgtypeid := cs.msgtypeid, msgdata := cs.msgdata }
    else none
  let ackn1 := u32add st.ackn n
  let ackPair : Option Nat × Nat :=
    if st.readAckSize ≠ 0 ∧ ackn1 > st.readAckSize then (some ackn1, 0)
    else (none, ackn1)
  ({ st with readcsmap := fun k => if k = csid then some cs else st.readcsmap k,
             ackn := ackPair.2 },
   { n := n, delivered := delivered, ack := ackPair.1, rest := rest })

/-- `Session.readChunk`: read exactly one chunk from the input stream. -/
def readChunk (st : RSession) (inp : List Nat) :
    Except RtmpErr (RSession × ChunkOutcome) :=
  match readBasicHeader inp with
  | .error e => .error e
  | .ok (fmtTpye, csid, n1, rest1) =>
    match readMsgHeader (getCs st csid) fmtTpye rest1 with
    | .error e => .error e
    | .ok (cs1, n2, rest2) =>
      match readChunkPayload st.readMaxChunkSize cs1 rest2 with
      | .error e => .error e
      | .ok (cs2, n3, rest3) => .ok (finishChunk st csid (n1 + n2 + n3) cs2 rest3)

/-- The read-side state of a fresh session (`NewSesion`): empty csid map,
`readMaxChunkSize = 128`, zero ack counter, zero ack window. -/
def freshReadSession : RSession :=
  { readcsmap := fun _ => none, readMaxChunkSize := 128, ackn := 0, readAckSize := 0 }

/-- `Session.fillChunk0Header`: the bytes a type-0 chunk header writes for
`(csid, timestamp, msgtypeid, msgsid, msgdatalen)`. -/
def fillChunk0Header (csid timestamp msgtypeid msgsid msgdatalen : Nat) : List Nat :=
  [csid % 256 % 64]
    ++ (if timestamp < 16777215 then u24be timestamp else u24be 16777215)
    ++ u24be msgdatalen
    ++ [msgtypeid % 256]
    ++ u32le msgsid
    ++ (if 16777215 ≤ timestamp then u32be timestamp else [])

/-- `Session.fillChunk3Header`: the bytes a type-3 continuation header writes
for `(csid, timestamp)`. -/
def fillChunk3Header (csid timestamp : Nat) : List Nat :=
  [csid % 256 % 64 + 192]
    ++ (if 16777215 ≤ timestamp then u32be timestamp else [])

/-- Message dispatched by one `readChunk` call, `none` on error or when the
chunk did not complete a message. -/
def chunkDelivered (st : RSession) (inp : List Nat) : Option DeliveredMsg :=
  match readChunk st inp with
  | .ok (_, out) => out.delivered
  | .error _ => none

/-- Encode a type-0 header (csid 3, type id 9, stream id 1, empty body) for
timestamp `ts`, then decode it with `readChunk` on a fresh session and return
the timestamp of the delivered message. -/
def headerRoundTrip (ts : Nat) : Option Nat :=
  (chunkDelivered freshReadSession (fillChunk0Header 3 ts 9 1 0)).map
    (fun m => m.timenow)

/-- Acknowledgement emitted by one `readChunk` call, `none` on error or when
the window was not exceeded. -/
def chunkAck (st : RSession) (inp : List Nat) : Option Nat :=
  match readChunk st inp with
  | .ok (_, out) => out.ack
  | .error _ => none

/-- Whether a `readChunk` result is the `rtmp: invalid chunk msg header type`
error of the default `switch fmtTpye` branch. -/
def errIsInvalidHdr {α : Type} : Except RtmpErr α → Bool
  | .error (.invalidChunkHdrType _) => true
  | _ => false

/-- Well-formed chunk-stream state: the remaining-byte counter never exceeds
the declared message length, the buffer has exactly the declared length, and
the length fits in a `uint32` (on the wire it is a 24-bit field). -/
def chunkStream.WF (cs : chunkStream) : Prop :=
  cs.msgdataleft ≤ cs.msgdatalen ∧ cs.msgdata.length = cs.msgdatalen ∧
    cs.msgdatalen < u32mod

/-- Well-formed read state: every registered chunk stream is well formed. -/
def RSession.WF (st : RSession) : Prop :=
  ∀ csid cs, st.readcsmap csid = some cs → cs.WF

/-! ## Helper lemmas about the byte-stream primitives -/

lemma takeBytes_spec {k : Nat} {inp bs rest : List Nat}
    (h : takeBytes k inp = some (bs, rest)) :
    bs.length = k ∧ k + rest.length = inp.length ∧ (∀ x ∈ bs, x < 256) := by
  unfold takeBytes at h
  split at h
  case isTrue hk =>
    simp only [Option.some.injEq, Prod.mk.injEq] at h
    obtain ⟨hbs, hrest⟩ := h
    subst hbs; subst hrest
    refine ⟨by simp [Nat.min_eq_left hk], by simp; omega, ?_⟩
    intro x hx
    simp only [List.mem_map] at hx
    obtain ⟨b, _, rfl⟩ := hx
    exact Nat.mod_lt _ (by omega)
  case isFalse => exact absurd h (by simp)

lemma getD_lt_256 : ∀ (l : List Nat) (i : Nat), (∀ x ∈ l, x < 256) → l.getD i 0 < 256
  | [], _, _ => by simp [List.getD]
  | x :: _, 0, h => h x (by simp)
  | _ :: xs, i + 1, h => by
      simpa using getD_lt_256 xs i (fun y hy => h y (by simp [hy]))

lemma U24BE_lt {b : List Nat} (h : ∀ x ∈ b, x < 256) : U24BE b < 16777216 := by
  have h0 := getD_lt_256 b 0 h
  have h1 := getD_lt_256 b 1 h
  have h2 := getD_lt_256 b 2 h
  unfold U24BE
  omega

lemma u32sub_eq {a b : Nat} (hba : b ≤ a) (ha : a < u32mod) : u32sub a b = a - b := by
  unfold u32sub u32mod at *
  omega

lemma listWrite_length {l bs : List Nat} {off : Nat} (h : off + bs.length ≤ l.length) :
    (listWrite l off bs).length = l.length := by
  unfold listWrite
  simp only [List.length_append, List.length_take, List.length_drop]
  omega

lemma chunkStream_init_WF : chunkStream.init.WF := by
  refine ⟨Nat.le_refl _, rfl, by decide⟩

lemma getCs_WF {st : RSession} (hwf : st.WF) (csid : Nat) : (getCs st csid).WF := by
  unfold getCs
  cases h : st.readcsmap csid with
  | none => simpa using chunkStream_init_WF
  | some cs => simpa using hwf csid cs h

/-- Constructor test for `Except`, used to extract evaluated results. -/
def exOk {α β : Type} : Except α β → Bool
  | .ok _ => true
  | .error _ => false

lemma exOk_exists {α β : Type} (x : Except α β) (h : exOk x = true) :
    ∃ p, x = .ok p := by
  cases x with
  | ok p => exact ⟨p, rfl⟩
  | error e => simp [exOk] at h

lemma start_WF {cs : chunkStream} (h : cs.msgdatalen < u32mod) : cs.Start.WF :=
  ⟨Nat.le_refl _, List.length_replicate _ _, h⟩

lemma u24_take_lt {k : Nat} {inp bs rest : List Nat}
    (h : takeBytes k inp = some (bs, rest)) (i j : Nat) :
    U24BE ((bs.drop i).take j) < 16777216 :=
  U24BE_lt fun x hx =>
    (takeBytes_spec h).2.2 x (List.mem_of_mem_drop (List.mem_of_mem_take hx))

/-- Errors of the basic-header phase are always end-of-input. -/
lemma readBasicHeader_err {inp : List Nat} {e : RtmpErr}
    (h : readBasicHeader inp = .error e) : e = .eof := by
  unfold readBasicHeader at h
  dsimp only [] at h
  repeat' split at h
  all_goals simp_all

/-- A successful basic-header parse yields a format type below 4 and exact
byte accounting. -/
lemma readBasicHeader_ok {inp : List Nat} {fmt csid n : Nat} {rest : List Nat}
    (h : readBasicHeader inp = .ok (fmt, csid, n, rest)) :
    fmt < 4 ∧ n + rest.length = inp.length := by
  unfold readBasicHeader at h
  dsimp only [] at h
  split at h
  case h_1 => exact Except.noConfusion h
  case h_2 hb rest1 heq1 =>
    have hb256 : hb.getD 0 0 < 256 := getD_lt_256 _ _ (takeBytes_spec heq1).2.2
    have hacc1 := (takeBytes_spec heq1).2.1
    have hfmt : hb.getD 0 0 / 64 < 4 := Nat.div_lt_of_lt_mul (by omega)
    have hall : ∀ (kk : Nat) (bs2 rest2 : List Nat),
        takeBytes kk rest1 = some (bs2, rest2) → kk + rest2.length = rest1.length :=
      fun kk bs2 rest2 hh => (takeBytes_spec hh).2.1
    repeat' split at h
    all_goals
      first
        | exact Except.noConfusion h
        | (simp only [Except.ok.injEq, Prod.mk.injEq] at h
           obtain ⟨rfl, -, rfl, rfl⟩ := h
           refine ⟨hfmt, ?_⟩
           first
             | (have h2acc := hall _ _ _ (by assumption); omega)
             | omega)

/-- Structure of a successful message-header phase: well-formedness is
preserved and the consumed bytes are accounted exactly. -/
lemma readMsgHeader_ok {cs : chunkStream} {fmt : Nat} {inp : List Nat}
    {cs1 : chunkStream} {n2 : Nat} {rest2 : List Nat}
    (h : readMsgHeader cs fmt inp = .ok (cs1, n2, rest2)) :
    (cs.WF → cs1.WF) ∧ n2 + rest2.length = inp.length := by
  obtain _ | _ | _ | _ | f := fmt
  case succ.succ.succ.succ =>
    rw [show readMsgHeader cs (f + 4) inp = .error (.invalidChunkHdrType (f + 4))
        from rfl] at h
    exact Except.noConfusion h
  -- fmt = 0
  case zero =>
    simp only [readMsgHeader] at h
    split at h
    case isTrue => exact Except.noConfusion h
    case isFalse =>
      split at h
      case h_1 => exact Except.noConfusion h
      case h_2 hb rest1 heq1 =>
        have hlen24 := u24_take_lt heq1 3 3
        have hacc1 := (takeBytes_spec heq1).2.1
        split at h
        case isTrue =>
          split at h
          case h_1 => exact Except.noConfusion h
          case h_2 e rest2' heq2 =>
            have hacc2 := (takeBytes_spec heq2).2.1
            simp only [Except.ok.injEq, Prod.mk.injEq] at h
            obtain ⟨rfl, rfl, rfl⟩ := h
            exact ⟨fun _ => start_WF (by unfold u32mod; simp; omega), by omega⟩
        case isFalse =>
          simp only [Except.ok.injEq, Prod.mk.injEq] at h
          obtain ⟨rfl, rfl, rfl⟩ := h
          exact ⟨fun _ => start_WF (by unfold u32mod; simp; omega), by omega⟩
  -- fmt = 1
  case succ.zero =>
    simp only [readMsgHeader] at h
    split at h
    case isTrue => exact Except.noConfusion h
    case isFalse =>
      split at h
      case h_1 => exact Except.noConfusion h
      case h_2 hb rest1 heq1 =>
        have hlen24 := u24_take_lt heq1 3 3
        have hacc1 := (takeBytes_spec heq1).2.1
        split at h
        case isTrue =>
          split at h
          case h_1 => exact Except.noConfusion h
          case h_2 e rest2' heq2 =>
            have hacc2 := (takeBytes_spec heq2).2.1
            simp only [Except.ok.injEq, Prod.mk.injEq] at h
            obtain ⟨rfl, rfl, rfl⟩ := h
            exact ⟨fun _ => start_WF (by unfold u32mod; simp; omega), by omega⟩
        case isFalse =>
          simp only [Except.ok.injEq, Prod.mk.injEq] at h
          obtain ⟨rfl, rfl, rfl⟩ := h
          exact ⟨fun _ => start_WF (by unfold u32mod; simp; omega), by omega⟩
  -- fmt = 2
  case succ.succ.zero =>
    simp only [readMsgHeader] at h
    split at h
    case isTrue => exact Except.noConfusion h
    case isFalse =>
      split at h
      case h_1 => exact Except.noConfusion h
      case h_2 hb rest1 heq1 =>
        have hacc1 := (takeBytes_spec heq1).2.1
        split at h
        case isTrue =>
          split at h
          case h_1 => exact Except.noConfusion h
          case h_2 e rest2' heq2 =>
            have hacc2 := (takeBytes_spec heq2).2.1
            simp only [Except.ok.injEq, Prod.mk.injEq] at h
            obtain ⟨rfl, rfl, rfl⟩ := h
            exact ⟨fun hwf => start_WF (by simpa using hwf.2.2), by omega⟩
        case isFalse =>
          simp only [Except.ok.injEq, Prod.mk.injEq] at h
          obtain ⟨rfl, rfl, rfl⟩ := h
          exact ⟨fun hwf => start_WF (by simpa using hwf.2.2), by omega⟩
  -- fmt = 3
  case succ.succ.succ.zero =>
    simp only [readMsgHeader] at h
    split at h
    case h_1 e heq =>
      exact Except.noConfusion h
    case h_2 cs1' k rest heq =>
      have hstep : (cs1'.WF ↔ cs.WF) ∧ k + rest.length = inp.length := by
        split at heq
        case isTrue =>
          split at heq
          case h_1 =>
            split at heq
            case h_1 => exact Except.noConfusion heq
            case h_2 e rest' heq2 =>
              have hacc := (takeBytes_spec heq2).2.1
              simp only [Except.ok.injEq, Prod.mk.injEq] at heq
              obtain ⟨rfl, rfl, rfl⟩ := heq
              exact ⟨Iff.rfl, by omega⟩
          case h_2 =>
            split at heq
            case h_1 => exact Except.noConfusion heq
            case h_2 e rest' heq2 =>
              have hacc := (takeBytes_spec heq2).2.1
              simp only [Except.ok.injEq, Prod.mk.injEq] at heq
              obtain ⟨rfl, rfl, rfl⟩ := heq
              exact ⟨Iff.rfl, by omega⟩
          case h_3 =>
            split at heq
            case h_1 => exact Except.noConfusion heq
            case h_2 e rest' heq2 =>
              have hacc := (takeBytes_spec heq2).2.1
              simp only [Except.ok.injEq, Prod.mk.injEq] at heq
              obtain ⟨rfl, rfl, rfl⟩ := heq
              exact ⟨Iff.rfl, by omega⟩
          case h_4 =>
            simp only [Except.ok.injEq, Prod.mk.injEq] at heq
            obtain ⟨rfl, rfl, rfl⟩ := heq
            exact ⟨Iff.rfl, by omega⟩
        case isFalse =>
          split at heq <;>
            (simp only [Except.ok.injEq, Prod.mk.injEq] at heq;
             obtain ⟨rfl, rfl, rfl⟩ := heq;
             exact ⟨Iff.rfl, by omega⟩)
      split at h
      case isTrue =>
        simp only [Except.ok.injEq, Prod.mk.injEq] at h
        obtain ⟨rfl, rfl, rfl⟩ := h
        refine ⟨fun hwf => start_WF ((hstep.1.mpr hwf).2.2), hstep.2⟩
      case isFalse =>
        simp only [Except.ok.injEq, Prod.mk.injEq] at h
        obtain ⟨rfl, rfl, rfl⟩ := h
        exact ⟨fun hwf => hstep.1.mpr hwf, hstep.2⟩

/-- Errors of the message-header phase for real format types: end-of-input or
the fmt-0/1/2 `msgdataleft` protocol error. -/
lemma readMsgHeader_err {cs : chunkStream} {fmt : Nat} {inp : List Nat}
    {e : RtmpErr} (hfmt : fmt < 4) (h : readMsgHeader cs fmt inp = .error e) :
    e = .eof ∨ e = .msgdataleftInvalid cs.msgdataleft := by
  obtain _ | _ | _ | _ | f := fmt
  case succ.succ.succ.succ => omega
  case succ.succ.succ.zero =>
    simp only [readMsgHeader] at h
    split at h
    case h_1 e' heq =>
      simp only [Except.error.injEq] at h
      subst h
      split at heq
      case isTrue =>
        split at heq <;>
          first
            | (split at heq <;> simp_all)
            | simp_all
      case isFalse => split at heq <;> simp_all
    case h_2 => split at h <;> exact Except.noConfusion h
  all_goals
    simp only [readMsgHeader] at h
    split at h
    case isTrue hne =>
      simp only [Except.error.injEq] at h
      subst h
      exact Or.inr rfl
    case isFalse =>
      split at h
      case h_1 => simp only [Except.error.injEq] at h; subst h; exact Or.inl rfl
      case h_2 =>
        split at h <;>
          first
            | (split at h
               case h_1 =>
                 simp only [Except.error.injEq] at h; subst h; exact Or.inl rfl
               case h_2 => exact Except.noConfusion h)
            | exact Except.noConfusion h

/-- Structure of the payload phase: exact byte accounting unconditionally,
and under well-formedness the spec-level description of the write. -/
lemma readChunkPayload_ok {m : Nat} {cs cs2 : chunkStream}
    {inp rest3 : List Nat} {n3 : Nat}
    (h : readChunkPayload m cs inp = .ok (cs2, n3, rest3)) :
    n3 + rest3.length = inp.length ∧
    (cs.WF →
      n3 = min cs.msgdataleft m ∧
      (∃ bs, takeBytes (min cs.msgdataleft m) inp = some (bs, rest3) ∧
        cs2.msgdata = listWrite cs.msgdata (cs.msgdatalen - cs.msgdataleft) bs) ∧
      cs2.msgdataleft = cs.msgdataleft - min cs.msgdataleft m ∧
      cs2.msgdatalen = cs.msgdatalen ∧ cs2.msgdata.length = cs.msgdatalen ∧
      cs2.WF) := by
  have hmin : (if cs.msgdataleft > m then m else cs.msgdataleft) =
      min cs.msgdataleft m := by split <;> omega
  simp only [readChunkPayload, hmin] at h
  split at h
  case isFalse => exact Except.noConfusion h
  case isTrue hbound =>
    split at h
    case h_1 => exact Except.noConfusion h
    case h_2 bs rest heq =>
      have hbs := takeBytes_spec heq
      simp only [Except.ok.injEq, Prod.mk.injEq] at h
      obtain ⟨rfl, rfl, rfl⟩ := h
      refine ⟨by omega, ?_⟩
      intro hwf
      obtain ⟨hle, hlen, hlt⟩ := hwf
      have hminle : min cs.msgdataleft m ≤ cs.msgdataleft := min_le_left _ _
      have hoff : u32sub cs.msgdatalen cs.msgdataleft =
          cs.msgdatalen - cs.msgdataleft := u32sub_eq hle hlt
      have hleft : u32sub cs.msgdataleft (min cs.msgdataleft m) =
          cs.msgdataleft - min cs.msgdataleft m :=
        u32sub_eq hminle (by omega)
      rw [hoff] at hbound
      have hlenw : (listWrite cs.msgdata
          (cs.msgdatalen - cs.msgdataleft) bs).length = cs.msgdata.length :=
        listWrite_length (by omega)
      refine ⟨rfl, ⟨bs, heq, by simp [hoff]⟩, by simp [hleft], rfl, ?_, ?_⟩
      · simp only [hoff, hlenw]
        exact hlen
      · refine ⟨?_, ?_, hlt⟩
        · simp only [hleft]
          omega
        · simp only [hoff, hlenw]
          exact hlen

/-- Errors of the payload phase: end-of-input or the slice-bounds panic. -/
lemma readChunkPayload_err {m : Nat} {cs : chunkStream} {inp : List Nat}
    {e : RtmpErr} (h : readChunkPayload m cs inp = .error e) :
    e = .eof ∨ ∃ a b, e = .slicePanic a b := by
  have hmin : (if cs.msgdataleft > m then m else cs.msgdataleft) =
      min cs.msgdataleft m := by split <;> omega
  simp only [readChunkPayload, hmin] at h
  split at h
  case isTrue =>
    split at h
    case h_1 => simp only [Except.error.injEq] at h; subst h; exact Or.inl rfl
    case h_2 => exact Except.noConfusion h
  case isFalse =>
    simp only [Except.error.injEq] at h
    subst h
    exact Or.inr ⟨_, _, rfl⟩

end Rtmp

namespace Rtmp

/-- C1 — Publisher-registry insert-if-absent: a successful
`RtmpSessionPush s1` registers `s1` under its anchor; while `s1` is the
registered entry for anchor `a`, any `RtmpSessionPush s2` for the same anchor
returns `false` and leaves the entry mapped to `s1`; once `RtmpSessionDel`
removes the anchor, a push for `a` succeeds again. -/
theorem registry_insert_if_absent (reg : Registry) (a : List Nat)
    (s1 s2 : PubSession) (h1 : s1.StreamAnchor = a) (h2 : s2.StreamAnchor = a) :
    ((RtmpSessionPush reg s1).2 = true →
        (RtmpSessionPush reg s1).1 (shardOf a) a = some s1) ∧
    (∀ reg' : Registry, reg' (shardOf a) a = some s1 →
        (RtmpSessionPush reg' s2).2 = false ∧
        (RtmpSessionPush reg' s2).1 (shardOf a) a = some s1) ∧
    (∀ reg' : Registry, reg' (shardOf a) a = some s1 →
        (RtmpSessionPush (RtmpSessionDel reg' s1) s2).2 = true) := by
  subst h1
  refine ⟨?_, ?_, ?_⟩
  · intro hpush
    unfold RtmpSessionPush at hpush ⊢
    cases hreg : reg (shardOf s1.StreamAnchor) s1.StreamAnchor with
    | some s => simp [hreg] at hpush
    | none => simp [hreg, h2]
  · intro reg' hreg'
    simp [RtmpSessionPush, h2, hreg']
  · intro reg' hreg'
    simp [RtmpSessionPush, RtmpSessionDel, h2]

/-- Witness for C1 at a concrete registry and anchor. -/
theorem registry_insert_if_absent_witness :
    let a : List Nat := [108, 105, 118, 101]
    let s1 : PubSession := ⟨1, [108, 105, 118, 101]⟩
    let s2 : PubSession := ⟨2, [108, 105, 118, 101]⟩
    (RtmpSessionPush emptyRegistry s1).2 = true ∧
    (RtmpSessionPush (RtmpSessionPush emptyRegistry s1).1 s2).2 = false ∧
    (RtmpSessionPush (RtmpSessionPush emptyRegistry s1).1 s2).1 (shardOf a) a = some s1 ∧
    (RtmpSessionPush (RtmpSessionDel (RtmpSessionPush emptyRegistry s1).1 s1) s2).2 = true := by
  intro a s1 s2
  have hmain := registry_insert_if_absent emptyRegistry a s1 s2 rfl rfl
  have hpush : (RtmpSessionPush emptyRegistry s1).2 = true := by decide
  have hreg1 : (RtmpSessionPush emptyRegistry s1).1 (shardOf a) a = some s1 :=
    hmain.1 hpush
  refine ⟨hpush, (hmain.2.1 _ hreg1).1, (hmain.2.1 _ hreg1).2, hmain.2.2 _ hreg1⟩

/-- C2 — Registry lookup agrees with insert under FNV-32a sharding:
`RtmpSessionGet` reads exactly the `shardOf a = FNV-32a(a) mod 101` shard entry
for `a`; after a successful push of `s`, `RtmpSessionGet` of its anchor returns
`some s`; when no session is registered under `a` the lookup returns `none`;
and push/del leave every other shard entry untouched. -/
theorem registry_shard_lookup :
    (∀ (reg : Registry) (a : List Nat), RtmpSessionGet reg a = reg (shardOf a) a) ∧
    (∀ (reg : Registry) (s : PubSession), (RtmpSessionPush reg s).2 = true →
        RtmpSessionGet (RtmpSessionPush reg s).1 s.StreamAnchor = some s) ∧
    (∀ (reg : Registry) (a : List Nat), reg (shardOf a) a = none →
        RtmpSessionGet reg a = none) ∧
    (∀ (reg : Registry) (s : PubSession) (j : Nat) (p : List Nat),
        ¬(j = shardOf s.StreamAnchor ∧ p = s.StreamAnchor) →
        (RtmpSessionPush reg s).1 j p = reg j p ∧
        RtmpSessionDel reg s j p = reg j p) := by
  refine ⟨fun reg a => rfl, ?_, fun reg a h => h, ?_⟩
  · intro reg s hpush
    unfold RtmpSessionPush at hpush ⊢
    unfold RtmpSessionGet
    cases hreg : reg (shardOf s.StreamAnchor) s.StreamAnchor with
    | some t => simp [hreg] at hpush
    | none => simp [hreg]
  · intro reg s j p hne
    constructor
    · unfold RtmpSessionPush
      cases hreg : reg (shardOf s.StreamAnchor) s.StreamAnchor with
      | some t => simp [hreg]
      | none => simp [hreg, if_neg hne]
    · unfold RtmpSessionDel
      simp [if_neg hne]

/-- Witness for C2 at a concrete registry, session and off-shard probe. -/
theorem registry_shard_lookup_witness :
    let s : PubSession := ⟨7, [97]⟩
    RtmpSessionGet emptyRegistry [97] = emptyRegistry (shardOf [97]) [97] ∧
    RtmpSessionGet (RtmpSessionPush emptyRegistry s).1 [97] = some s ∧
    RtmpSessionGet emptyRegistry [98] = none ∧
    (RtmpSessionPush emptyRegistry s).1 0 [99] = emptyRegistry 0 [99] := by
  intro s
  refine ⟨registry_shard_lookup.1 emptyRegistry [97], ?_, ?_, ?_⟩
  · exact registry_shard_lookup.2.1 emptyRegistry s (by decide)
  · exact registry_shard_lookup.2.2.1 emptyRegistry [98] rfl
  · exact (registry_shard_lookup.2.2.2 emptyRegistry s 0 [99] (by decide)).1

/-- C5 — Basic-header decoding: `readChunk` takes the format type from the top
2 bits and `csid_low` from the low 6 bits of the first byte; `csid_low = 0`
consumes one extra byte giving `csid = byte + 64`; `csid_low = 1` consumes two
extra bytes big-endian giving `csid = u16 + 64`; otherwise `csid = csid_low`. -/
theorem basic_header_decode (b : Nat) (hb : b < 256) :
    (∀ rest : List Nat, 2 ≤ b % 64 →
        readBasicHeader (b :: rest) = .ok (b / 64, b % 64, 1, rest)) ∧
    (∀ (c : Nat) (rest : List Nat), b % 64 = 0 → c < 256 →
        readBasicHeader (b :: c :: rest) = .ok (b / 64, c + 64, 2, rest)) ∧
    (∀ (c1 c2 : Nat) (rest : List Nat), b % 64 = 1 → c1 < 256 → c2 < 256 →
        readBasicHeader (b :: c1 :: c2 :: rest) =
          .ok (b / 64, c1 * 256 + c2 + 64, 3, rest)) := by
  have hb' : b % 256 = b := Nat.mod_eq_of_lt hb
  refine ⟨?_, ?_, ?_⟩
  · intro rest h2
    obtain ⟨k, hk⟩ : ∃ k, b % 64 = k + 2 := ⟨b % 64 - 2, by omega⟩
    simp only [readBasicHeader, takeBytes, List.length_cons, List.take_succ_cons,
      List.take_zero, List.map_cons, List.map_nil, List.drop_succ_cons,
      List.drop_zero, if_pos (by omega : 1 ≤ rest.length + 1), hb',
      List.getD_cons_zero]
    rw [hk]
    rfl
  · intro c rest h0 hc
    simp only [readBasicHeader, takeBytes, List.length_cons, List.take_succ_cons,
      List.take_zero, List.map_cons, List.map_nil, List.drop_succ_cons,
      List.drop_zero, if_pos (by omega : 1 ≤ rest.length + 1 + 1), hb',
      List.getD_cons_zero]
    rw [h0]
    simp only [if_pos (by omega : 1 ≤ rest.length + 1), List.take_succ_cons,
      List.take_zero, List.map_cons, List.map_nil, List.drop_succ_cons,
      List.drop_zero, List.getD_cons_zero, Nat.mod_eq_of_lt hc]
  · intro c1 c2 rest h1 hc1 hc2
    simp only [readBasicHeader, takeBytes, List.length_cons, List.take_succ_cons,
      List.take_zero, List.map_cons, List.map_nil, List.drop_succ_cons,
      List.drop_zero, if_pos (by omega : 1 ≤ rest.length + 1 + 1 + 1), hb',
      List.getD_cons_zero]
    rw [h1]
    simp only [if_pos (by omega : 2 ≤ rest.length + 1 + 1), List.take_succ_cons,
      List.take_zero, List.map_cons, List.map_nil, List.drop_succ_cons,
      List.drop_zero, U16BE, List.getD_cons_zero, List.getD_cons_succ,
      Nat.mod_eq_of_lt hc1, Nat.mod_eq_of_lt hc2]

/-- Witness for C5 on the three basic-header layouts. -/
theorem basic_header_decode_witness :
    readBasicHeader [67, 9] = .ok (1, 3, 1, [9]) ∧
    readBasicHeader [64, 9] = .ok (1, 73, 2, []) ∧
    readBasicHeader [65, 1, 2] = .ok (1, 322, 3, []) := by
  refine ⟨?_, ?_, ?_⟩
  · simpa using (basic_header_decode 67 (by omega)).1 [9] (by omega)
  · simpa using (basic_header_decode 64 (by omega)).2.1 9 [] (by omega) (by omega)
  · simpa using (basic_header_decode 65 (by omega)).2.2 1 2 [] (by omega)
      (by omega) (by omega)

/-- C6 — A fmt-0 header starts a new message (after it, `msgdataleft` equals
the declared `msgdatalen` and the recorded header type is 0), and when a fmt-0
header arrives while the addressed chunk stream still has `msgdataleft ≠ 0`,
`readChunk` returns the protocol error without delivering any message. -/
theorem fmt0_header_protocol_error :
    (∀ (st : RSession) (inp : List Nat) (csid n1 : Nat) (rest1 : List Nat),
        readBasicHeader inp = .ok (0, csid, n1, rest1) →
        (getCs st csid).msgdataleft ≠ 0 →
        readChunk st inp =
          .error (.msgdataleftInvalid (getCs st csid).msgdataleft)) ∧
    (∀ (cs : chunkStream) (inp : List Nat) (cs1 : chunkStream) (n : Nat)
        (rest : List Nat),
        readMsgHeader cs 0 inp = .ok (cs1, n, rest) →
        cs1.msgdataleft = cs1.msgdatalen ∧ cs1.msghdrtype = 0) := by
  constructor
  · intro st inp csid n1 rest1 hbasic hleft
    unfold readChunk
    rw [hbasic]
    simp [readMsgHeader, hleft]
  · intro cs inp cs1 n rest h
    simp only [readMsgHeader] at h
    split at h
    case isTrue => exact absurd h (by simp)
    case isFalse =>
      split at h
      case h_1 => exact absurd h (by simp)
      case h_2 =>
        split at h
        case isTrue =>
          split at h
          case h_1 => exact absurd h (by simp)
          case h_2 =>
            simp only [Except.ok.injEq, Prod.mk.injEq] at h
            obtain ⟨rfl, -, -⟩ := h
            exact ⟨rfl, rfl⟩
        case isFalse =>
          simp only [Except.ok.injEq, Prod.mk.injEq] at h
          obtain ⟨rfl, -, -⟩ := h
          exact ⟨rfl, rfl⟩

/-- Witness for C6: a fmt-0 chunk for csid 3 while 5 bytes of a message are
still outstanding is rejected; a fmt-0 header on an idle stream starts a
message of the declared length. -/
theorem fmt0_header_protocol_error_witness :
    (let pending : chunkStream :=
      { timenow := 0, timedelta := 0, hastimeext := false, msgsid := 1,
        msgtypeid := 9, msgdatalen := 7, msgdataleft := 5, msghdrtype := 0,
        msgdata := [0, 0, 0, 0, 0, 0, 0] }
     let st : RSession :=
      { readcsmap := fun k => if k = 3 then some pending else none,
        readMaxChunkSize := 128, ackn := 0, readAckSize := 0 }
     readChunk st [3] = .error (.msgdataleftInvalid 5)) ∧
    (∃ cs1 : chunkStream,
      readMsgHeader chunkStream.init 0 [0, 0, 5, 0, 0, 2, 9, 1, 0, 0, 0] =
        .ok (cs1, 11, []) ∧
      cs1.msgdataleft = cs1.msgdatalen ∧ cs1.msghdrtype = 0) := by
  constructor
  · intro pending st
    have h := fmt0_header_protocol_error.1 st [3] 3 1 [] (by rfl) (by decide)
    have hcs : (getCs st 3).msgdataleft = 5 := by decide
    rw [hcs] at h
    exact h
  · refine ⟨⟨5, 0, false, 1, 9, 2, 2, 0, [0, 0]⟩, by rfl, ?_⟩
    exact fmt0_header_protocol_error.2 chunkStream.init
      [0, 0, 5, 0, 0, 2, 9, 1, 0, 0, 0] ⟨5, 0, false, 1, 9, 2, 2, 0, [0, 0]⟩
      11 [] (by rfl)


/-- C3 — Chunk reassembly delivers exactly the declared payload: a successful
`readChunk` on a well-formed session decomposes into the three phases; the
payload phase consumes `min(msgdataleft, readMaxChunkSize)` wire bytes,
writes them into the message buffer at offset `msgdatalen - msgdataleft`, and
decrements `msgdataleft` by that amount; the handler is invoked exactly when
`msgdataleft` reaches 0, with a payload of length `msgdatalen`, and after a
delivery the stored chunk-stream state has `msgdataleft = 0`. -/
theorem readChunk_reassembly (st : RSession) (inp : List Nat) (st2 : RSession)
    (out : ChunkOutcome) (hwf : st.WF) (h : readChunk st inp = .ok (st2, out)) :
    ∃ (fmt csid n1 : Nat) (rest1 : List Nat) (cs1 : chunkStream) (n2 : Nat)
      (rest2 bs : List Nat) (cs2 : chunkStream),
      readBasicHeader inp = .ok (fmt, csid, n1, rest1) ∧
      readMsgHeader (getCs st csid) fmt rest1 = .ok (cs1, n2, rest2) ∧
      takeBytes (min cs1.msgdataleft st.readMaxChunkSize) rest2 =
        some (bs, out.rest) ∧
      st2.readcsmap csid = some cs2 ∧
      cs2.msgdata = listWrite cs1.msgdata (cs1.msgdatalen - cs1.msgdataleft) bs ∧
      cs2.msgdatalen = cs1.msgdatalen ∧
      cs2.msgdataleft =
        cs1.msgdataleft - min cs1.msgdataleft st.readMaxChunkSize ∧
      (out.delivered.isSome ↔ cs2.msgdataleft = 0) ∧
      (∀ m, out.delivered = some m →
        m.msgdata = cs2.msgdata ∧ m.msgdata.length = cs2.msgdatalen ∧
        cs2.msgdataleft = 0) := by
  unfold readChunk at h
  cases hb : readBasicHeader inp with
  | error e => rw [hb] at h; exact Except.noConfusion h
  | ok t =>
    obtain ⟨fmt, csid, n1, rest1⟩ := t
    rw [hb] at h
    dsimp only [] at h
    cases hm : readMsgHeader (getCs st csid) fmt rest1 with
    | error e => rw [hm] at h; exact Except.noConfusion h
    | ok t2 =>
      obtain ⟨cs1, n2, rest2⟩ := t2
      rw [hm] at h
      dsimp only [] at h
      cases hp : readChunkPayload st.readMaxChunkSize cs1 rest2 with
      | error e => rw [hp] at h; exact Except.noConfusion h
      | ok t3 =>
        obtain ⟨cs2, n3, rest3⟩ := t3
        rw [hp] at h
        dsimp only [] at h
        simp only [Except.ok.injEq] at h
        have hcs1wf : cs1.WF := (readMsgHeader_ok hm).1 (getCs_WF hwf csid)
        obtain ⟨-, hpay⟩ := readChunkPayload_ok hp
        obtain ⟨hn3, ⟨bs, htake, hdata⟩, hleft2, hlen2, hbuf2, hwf2⟩ := hpay hcs1wf
        simp only [finishChunk, Prod.mk.injEq] at h
        obtain ⟨hst, hout⟩ := h
        refine ⟨fmt, csid, n1, rest1, cs1, n2, rest2, bs, cs2, rfl, hm, ?_, ?_,
          hdata, hlen2, hleft2, ?_, ?_⟩
        · rw [← hout]
          exact htake
        · rw [← hst]
          simp
        · rw [← hout]
          simp only []
          constructor
          · intro hsome
            by_contra hne
            rw [if_neg hne] at hsome
            simp at hsome
          · intro hzero
            rw [if_pos hzero]
            simp
        · intro m hm2
          rw [← hout] at hm2
          simp only [] at hm2
          split at hm2
          case isTrue hzero =>
            simp only [Option.some.injEq] at hm2
            subst hm2
            exact ⟨rfl, by rw [hbuf2, hlen2], hzero⟩
          case isFalse => exact Option.noConfusion hm2

/-- Witness for C3: a two-byte message in a single chunk on a fresh session is
delivered whole. -/
theorem readChunk_reassembly_witness :
    chunkDelivered freshReadSession
        [3, 0, 0, 5, 0, 0, 2, 9, 1, 0, 0, 0, 170, 187] =
      some { timenow := 5, msgsid := 1, msgtypeid := 9, msgdata := [170, 187] } := by
  obtain ⟨p, hp⟩ := exOk_exists
    (readChunk freshReadSession [3, 0, 0, 5, 0, 0, 2, 9, 1, 0, 0, 0, 170, 187])
    (by rfl)
  have hwf : RSession.WF freshReadSession := by
    intro csid cs hcs
    exact Option.noConfusion hcs
  have hmain := readChunk_reassembly freshReadSession
    [3, 0, 0, 5, 0, 0, 2, 9, 1, 0, 0, 0, 170, 187] p.1 p.2 hwf (by rw [hp])
  decide

/-- C7 — Acknowledgement window: `readChunk` adds the bytes consumed for the
chunk to `ackn`; when `readAckSize` is zero no ack is ever emitted; when it is
nonzero, exceeding it emits an ack carrying the updated counter and resets the
counter to zero, and otherwise the updated counter is kept with no ack. -/
theorem readChunk_ack_window (st : RSession) (inp : List Nat) (st2 : RSession)
    (out : ChunkOutcome) (h : readChunk st inp = .ok (st2, out)) :
    out.n + out.rest.length = inp.length ∧
    (st.readAckSize = 0 → out.ack = none ∧ st2.ackn = u32add st.ackn out.n) ∧
    (st.readAckSize ≠ 0 → st.readAckSize < u32add st.ackn out.n →
      out.ack = some (u32add st.ackn out.n) ∧ st2.ackn = 0) ∧
    (st.readAckSize ≠ 0 → ¬ st.readAckSize < u32add st.ackn out.n →
      out.ack = none ∧ st2.ackn = u32add st.ackn out.n) := by
  unfold readChunk at h
  cases hb : readBasicHeader inp with
  | error e => rw [hb] at h; exact Except.noConfusion h
  | ok t =>
    obtain ⟨fmt, csid, n1, rest1⟩ := t
    rw [hb] at h
    dsimp only [] at h
    cases hm : readMsgHeader (getCs st csid) fmt rest1 with
    | error e => rw [hm] at h; exact Except.noConfusion h
    | ok t2 =>
      obtain ⟨cs1, n2, rest2⟩ := t2
      rw [hm] at h
      dsimp only [] at h
      cases hp : readChunkPayload st.readMaxChunkSize cs1 rest2 with
      | error e => rw [hp] at h; exact Except.noConfusion h
      | ok t3 =>
        obtain ⟨cs2, n3, rest3⟩ := t3
        rw [hp] at h
        dsimp only [] at h
        simp only [Except.ok.injEq] at h
        have hacc1 := (readBasicHeader_ok hb).2
        have hacc2 := (readMsgHeader_ok hm).2
        have hacc3 := (readChunkPayload_ok hp).1
        simp only [finishChunk, Prod.mk.injEq] at h
        obtain ⟨hst, hout⟩ := h
        have hn : out.n = n1 + n2 + n3 := by rw [← hout]
        have hrest : out.rest = rest3 := by rw [← hout]
        refine ⟨by rw [hn, hrest]; omega, ?_, ?_, ?_⟩
        · intro hz
          have hcond : ¬(st.readAckSize ≠ 0 ∧
              u32add st.ackn (n1 + n2 + n3) > st.readAckSize) := by
            simp [hz]
          constructor
          · rw [← hout]
            simp only [if_neg hcond]
          · rw [← hst, hn]
            simp only [if_neg hcond]
        · intro hnz hgt
          have hcond : st.readAckSize ≠ 0 ∧
              u32add st.ackn (n1 + n2 + n3) > st.readAckSize := by
            rw [hn] at hgt
            exact ⟨hnz, hgt⟩
          constructor
          · rw [← hout]
            simp only [if_pos hcond]
          · rw [← hst]
            simp only [if_pos hcond]
        · intro hnz hle
          have hcond : ¬(st.readAckSize ≠ 0 ∧
              u32add st.ackn (n1 + n2 + n3) > st.readAckSize) := by
            rw [hn] at hle
            intro hand
            exact hle hand.2
          constructor
          · rw [← hout]
            simp only [if_neg hcond]
          · rw [← hst, hn]
            simp only [if_neg hcond]

/-- Witness for C7: with a 10-byte window, a 14-byte chunk triggers an ack of
14, and with window 0 the same chunk triggers none. -/
theorem readChunk_ack_window_witness :
    chunkAck { readcsmap := fun _ => none, readMaxChunkSize := 128, ackn := 0,
               readAckSize := 10 }
        [3, 0, 0, 5, 0, 0, 2, 9, 1, 0, 0, 0, 170, 187] = some 14 ∧
    chunkAck freshReadSession
        [3, 0, 0, 5, 0, 0, 2, 9, 1, 0, 0, 0, 170, 187] = none := by
  obtain ⟨p, hp⟩ := exOk_exists
    (readChunk { readcsmap := fun _ => none, readMaxChunkSize := 128, ackn := 0,
                 readAckSize := 10 }
      [3, 0, 0, 5, 0, 0, 2, 9, 1, 0, 0, 0, 170, 187])
    (by rfl)
  have hmain := readChunk_ack_window
    { readcsmap := fun _ => none, readMaxChunkSize := 128, ackn := 0,
      readAckSize := 10 }
    [3, 0, 0, 5, 0, 0, 2, 9, 1, 0, 0, 0, 170, 187] p.1 p.2 (by rw [hp])
  exact ⟨by decide, by decide⟩

/-- C10 — The format type computed from the basic-header byte is always one of
0, 1, 2, 3, so `readChunk` can never return the
`rtmp: invalid chunk msg header type` error of the default switch branch. -/
theorem readChunk_no_invalid_hdr_type (st : RSession) (inp : List Nat) :
    errIsInvalidHdr (readChunk st inp) = false := by
  unfold readChunk
  cases hb : readBasicHeader inp with
  | error e =>
    have he := readBasicHeader_err hb
    subst he
    rfl
  | ok t =>
    obtain ⟨fmt, csid, n1, rest1⟩ := t
    have hfmt := (readBasicHeader_ok hb).1
    dsimp only []
    cases hm : readMsgHeader (getCs st csid) fmt rest1 with
    | error e =>
      rcases readMsgHeader_err hfmt hm with rfl | rfl <;> rfl
    | ok t2 =>
      obtain ⟨cs1, n2, rest2⟩ := t2
      dsimp only []
      cases hp : readChunkPayload st.readMaxChunkSize cs1 rest2 with
      | error e =>
        rcases readChunkPayload_err hp with rfl | ⟨a, b, rfl⟩ <;> rfl
      | ok t3 =>
        obtain ⟨cs2, n3, rest3⟩ := t3
        rfl


/-- C4 — Extended-timestamp round-trip: `fillChunk0Header` emits `0xFFFFFF` in
the 24-bit field and appends the 4-byte big-endian extended timestamp exactly
when `timestamp ≥ 0xFFFFFF`; `fillChunk3Header` appends the same 4 bytes on a
type-3 continuation for such timestamps; and for 0xFFFFFE, 0xFFFFFF,
0x01000000 and 0xFFFFFFFF, encoding a type-0 header and decoding it with
`readChunk` recovers the exact 32-bit timestamp. -/
theorem ext_timestamp_roundtrip :
    (∀ csid ts mt ms ml : Nat, 16777215 ≤ ts →
      (fillChunk0Header csid ts mt ms ml).length = 16 ∧
      ((fillChunk0Header csid ts mt ms ml).drop 1).take 3 = [255, 255, 255] ∧
      (fillChunk0Header csid ts mt ms ml).drop 12 = u32be ts) ∧
    (∀ csid ts mt ms ml : Nat, ts < 16777215 →
      (fillChunk0Header csid ts mt ms ml).length = 12 ∧
      ((fillChunk0Header csid ts mt ms ml).drop 1).take 3 = u24be ts) ∧
    (∀ csid ts : Nat, 16777215 ≤ ts →
      (fillChunk3Header csid ts).length = 5 ∧
      (fillChunk3Header csid ts).drop 1 = u32be ts) ∧
    (∀ csid ts : Nat, ts < 16777215 →
      fillChunk3Header csid ts = [csid % 256 % 64 + 192]) ∧
    headerRoundTrip 16777214 = some 16777214 ∧
    headerRoundTrip 16777215 = some 16777215 ∧
    headerRoundTrip 16777216 = some 16777216 ∧
    headerRoundTrip 4294967295 = some 4294967295 := by
  refine ⟨?_, ?_, ?_, ?_, by decide, by decide, by decide, by decide⟩
  · intro csid ts mt ms ml h
    have hn : ¬ ts < 16777215 := by omega
    simp [fillChunk0Header, u24be, u32le, u32be, hn, h]
  · intro csid ts mt ms ml h
    have hn : ¬ 16777215 ≤ ts := by omega
    simp [fillChunk0Header, u24be, u32le, u32be, h, hn]
  · intro csid ts h
    simp [fillChunk3Header, u32be, h]
  · intro csid ts h
    have hn : ¬ 16777215 ≤ ts := by omega
    simp [fillChunk3Header, hn]

/-- Witness for C4 at concrete timestamps on both sides of the threshold. -/
theorem ext_timestamp_roundtrip_witness :
    (fillChunk0Header 3 16777216 9 1 0).length = 16 ∧
    (fillChunk0Header 3 5 9 1 0).length = 12 ∧
    (fillChunk3Header 3 4294967295).drop 1 = u32be 4294967295 ∧
    fillChunk3Header 3 5 = [195] := by
  refine ⟨(ext_timestamp_roundtrip.1 3 16777216 9 1 0 (by omega)).1,
          (ext_timestamp_roundtrip.2.1 3 5 9 1 0 (by omega)).1,
          (ext_timestamp_roundtrip.2.2.1 3 4294967295 (by omega)).2, ?_⟩
  have h := ext_timestamp_roundtrip.2.2.2.1 3 5 (by omega)
  simpa using h

/-! ## Accept loop (`Server.rtmpServeStart`) -/

/-- Outcome of one `listener.Accept()` call: success, a temporary
(`net.Error` with `Temporary()`) error, or a permanent error. -/
inductive AcceptResult where
  | ok : AcceptResult
  | tempErr : AcceptResult
  | fatalErr : AcceptResult
deriving DecidableEq, Repr

/-- The sleeps (in milliseconds) `Server.rtmpServeStart` performs for a given
sequence of accept outcomes.  In the source, `var tempDelay time.Duration` is
declared inside the `for` loop body, so every iteration starts with
`tempDelay = 0`; a temporary error then takes the `tempDelay == 0` branch,
sleeps the computed delay and continues, a permanent error returns, and a
successful accept resets `tempDelay` and serves the connection. -/
def rtmpServeStartSleeps : List AcceptResult → List Nat
  | [] => []
  | ev :: evs =>
    let tempDelay := 0
    match ev with
    | .tempErr =>
      let d1 := if tempDelay = 0 then 5 else tempDelay * 2
      let d2 := if d1 > 1000 then 1000 else d1
      d2 :: rtmpServeStartSleeps evs
    | .ok => rtmpServeStartSleeps evs
    | .fatalErr => []

/-- C8 (evaluation at the failing input) — on two, then three, consecutive
temporary accept errors the loop sleeps 5 ms every time: the doubling the
claim describes never happens, because `tempDelay` is redeclared as 0 on each
iteration. -/
theorem accept_backoff_constant_5ms :
    rtmpServeStartSleeps [.tempErr, .tempErr] = [5, 5] ∧
    rtmpServeStartSleeps [.tempErr, .tempErr, .tempErr] = [5, 5, 5] := by
  constructor <;> rfl

end Rtmp

namespace h265Parse

/-- `AVCDecoderConfRecord` of `h265Parse/parse.go`. -/
structure AVCDecoderConfRecord where
  AVCProfileIndication : Nat
  ProfileCompatibility : Nat
  AVCLevelIndication : Nat
  LengthSizeMinusOne : Nat
  VPS : List (List Nat)
  SPS : List (List Nat)
  PPS : List (List Nat)
deriving Repr

/-- `AVCDecoderConfRecord.Len`: 7 fixed bytes plus `2 + len` for every SPS and
every PPS entry. -/
def AVCDecoderConfRecord.Len (self : AVCDecoderConfRecord) : Nat :=
  let n := 7
  let n := self.SPS.foldl (fun n sps => n + (2 + sps.length)) n
  self.PPS.foldl (fun n pps => n + (2 + pps.length)) n

/-- One iteration of the SPS/PPS write loops of `Marshal`: a 2-byte
big-endian length, then the NALU bytes, advancing `n` by `2 + len`. -/
def marshalNalu (acc : List Nat × Nat) (nalu : List Nat) : List Nat × Nat :=
  (Rtmp.listWrite (Rtmp.listWrite acc.1 acc.2 (Rtmp.u16be nalu.length))
      (acc.2 + 2) (nalu.map (fun x => x % 256)),
   acc.2 + 2 + nalu.length)

/-- `AVCDecoderConfRecord.Marshal`: returns the written buffer and the byte
count `n`.  The increment after writing `AVCLevelIndication` at offset 6 is
commented out in the source (`//n += 6`), so the SPS loop begins writing at
offset 6 again. -/
def AVCDecoderConfRecord.Marshal (self : AVCDecoderConfRecord) (b : List Nat) :
    List Nat × Nat :=
  let b0 := (b.set 0 1).set 1 (self.AVCProfileIndication % 256)
  let b1 := Rtmp.listWrite b0 2 (Rtmp.u32be self.ProfileCompatibility)
  let b2 := b1.set 6 (self.AVCLevelIndication % 256)
  let s := self.SPS.foldl marshalNalu (b2, 6)
  let s2 := (s.1.set s.2 (self.PPS.length % 256), s.2 + 1)
  self.PPS.foldl marshalNalu s2

lemma marshalNalu_foldl_snd (l : List (List Nat)) :
    ∀ p : List Nat × Nat,
      (l.foldl marshalNalu p).2 =
        l.foldl (fun n x => n + (2 + x.length)) p.2 := by
  induction l with
  | nil => intro p; rfl
  | cons x xs ih =>
    intro p
    simp only [List.foldl_cons]
    rw [ih]
    congr 1
    simp [marshalNalu]
    omega

lemma foldl_len_shift (l : List (List Nat)) :
    ∀ a c : Nat,
      l.foldl (fun n x => n + (2 + x.length)) (a + c) =
        l.foldl (fun n x => n + (2 + x.length)) a + c := by
  induction l with
  | nil => intro a c; rfl
  | cons x xs ih =>
    intro a c
    simp only [List.foldl_cons]
    rw [show a + c + (2 + x.length) = a + (2 + x.length) + c by omega]
    exact ih _ _

/-- C9 — For every record and every buffer at least `Len` bytes long,
`Marshal` reports exactly `Len` bytes written: 7 fixed bytes plus
`2 + len(nalu)` for each SPS and each PPS. -/
theorem marshal_reports_len (r : AVCDecoderConfRecord) (b : List Nat)
    (h : r.Len ≤ b.length) : (r.Marshal b).2 = r.Len := by
  unfold AVCDecoderConfRecord.Marshal AVCDecoderConfRecord.Len
  dsimp only []
  rw [marshalNalu_foldl_snd]
  dsimp only []
  rw [marshalNalu_foldl_snd]
  dsimp only []
  rw [show (7 : Nat) = 6 + 1 from rfl]
  rw [foldl_len_shift r.SPS 6 1]

/-- Witness for C9: a record with one SPS and one PPS has `Len = 16`, and
`Marshal` into a 16-byte buffer reports 16. -/
theorem marshal_reports_len_witness :
    (AVCDecoderConfRecord.mk 100 7 10 3 [] [[1, 2, 3]] [[4, 5]]).Len = 16 ∧
    ((AVCDecoderConfRecord.mk 100 7 10 3 [] [[1, 2, 3]] [[4, 5]]).Marshal
        (List.replicate 16 0)).2 = 16 := by
  refine ⟨by decide, ?_⟩
  have h := marshal_reports_len
    (AVCDecoderConfRecord.mk 100 7 10 3 [] [[1, 2, 3]] [[4, 5]])
    (List.replicate 16 0) (by decide)
  rw [h]
  decide

end h265Parse
